import Mathlib

/-!
Shallow embedding of the ledger engine in `src/store.rs` (crate root
`src/main.rs`).  The Rust core keeps two `HashMap`s — `accounts : ClientId →
Account` and `history : TxId → Tx` — and exposes five operations
(`handle_deposit`, `handle_withdrawal`, `handle_dispute`, `handle_resolve`,
`handle_chargeback`).

Modelling choices:
* `ClientId` (`u16`) and `TxId` (`u32`) become `Nat`; no claim involves id
  overflow or wrapping.
* `rust_decimal::Decimal` becomes `Rat`: fixed-point decimal addition,
  subtraction and comparison are exact, which `Rat` reproduces exactly
  (overflow of the 96-bit mantissa is out of scope of every claim).
  `Decimal::is_sign_positive()` is modelled as `0 ≤ amount`.
* `HashMap` becomes an association list with `find?`/`insert` where `insert`
  replaces in place or appends; only lookup contents are ever compared
  through the claims' observable statements.
* A Rust `assert!` failure (process abort) is the `Outcome.panic` value: it
  produces no successor state.
* `handle_*` return `Result<(), Error>`; an `Err` leaves the store in
  whatever state the method had mutated it to by that point (notably
  `handle_dispute` sets the dispute mark before the funds check, and
  `get_account` inserts a fresh account on look-up).  `Outcome.err` therefore
  carries the (possibly mutated) store.
-/

set_option maxHeartbeats 1000000

/-- The dispute status of a history entry (src/store.rs `DisputeState`). -/
inductive DisputeState where
  | Normal
  | Disputed
  | Resolved
  | ChargedBack
deriving DecidableEq, Repr

/-- Transaction kinds (src/store.rs `TxType`). -/
inductive TxType where
  | Deposit
  | Withdrawal
  | Dispute
  | Resolve
  | Chargeback
deriving DecidableEq, Repr

/-- Domain errors (src/store.rs `Error`). -/
inductive Error where
  | InsufficientFunds (available required : Rat)
  | TxNotFound (txid : Nat)
  | TxInWrongState (txid : Nat) (action : TxType) (state : DisputeState)
deriving DecidableEq, Repr

/-- A history entry (src/store.rs `Tx`). -/
structure Tx where
  txid : Nat
  tp : TxType
  client : Nat
  amount : Rat
  dispute_state : DisputeState
deriving DecidableEq, Repr

/-- A per-client balance record (src/store.rs `Account`). -/
structure Account where
  id : Nat
  available : Rat
  held : Rat
  locked : Bool
deriving DecidableEq, Repr

/-- The derived output record (src/store.rs `AccountSummary`). -/
structure AccountSummary where
  client : Nat
  available : Rat
  held : Rat
  total : Rat
  locked : Bool
deriving DecidableEq, Repr

/-- Association-list lookup, modelling `HashMap::get`. -/
def findA {α : Type} : List (Nat × α) → Nat → Option α
  | [], _ => none
  | (k, v) :: rest, k' => if k' = k then some v else findA rest k'

/-- Association-list insert, modelling `HashMap::insert` (replace or add). -/
def insertA {α : Type} : List (Nat × α) → Nat → α → List (Nat × α)
  | [], k, v => [(k, v)]
  | (k', v') :: rest, k, v =>
      if k = k' then (k, v) :: rest else (k', v') :: insertA rest k v

/-- The ledger (src/store.rs `Store`): the `accounts` and `history` maps. -/
structure Store where
  accounts : List (Nat × Account)
  history : List (Nat × Tx)
deriving DecidableEq, Repr

/-- `Store::new()`. -/
def Store.empty : Store := ⟨[], []⟩

/-- `Account::new(id)`. -/
def Account.new (id : Nat) : Account := ⟨id, 0, 0, false⟩

/-- `Account::summary()`. -/
def Account.summary (a : Account) : AccountSummary :=
  ⟨a.id, a.available, a.held, a.available + a.held, a.locked⟩

/-- `Account::need(required_amount)`: `none` is `Ok(())`. -/
def Account.need (a : Account) (required : Rat) : Option Error :=
  if required ≤ a.available then none
  else some (Error.InsufficientFunds a.available required)

/-- `Store::get_account`: `entry(id).or_insert_with(Account::new)`.  Returns
the account together with the store in which it is guaranteed present. -/
def Store.get_account (s : Store) (c : Nat) : Account × Store :=
  let a := (findA s.accounts c).getD (Account.new c)
  (a, { s with accounts := insertA s.accounts c a })

/-- Writing back through the `&mut Account` returned by `get_account`. -/
def Store.setAccount (s : Store) (c : Nat) (a : Account) : Store :=
  { s with accounts := insertA s.accounts c a }

/-- `self.history.insert(txid, tx)`. -/
def Store.setTx (s : Store) (t : Nat) (tx : Tx) : Store :=
  { s with history := insertA s.history t tx }

/-- `Store::list_accounts()` (order as stored). -/
def Store.list_accounts (s : Store) : List AccountSummary :=
  s.accounts.map (fun p => p.2.summary)

/-- Result of one `handle_*` call: `Ok(())` with the new store, `Err(e)` with
the store as mutated up to the early return, or an `assert!` abort. -/
inductive Outcome where
  | ok (s : Store)
  | err (e : Error) (s : Store)
  | panic
deriving DecidableEq, Repr

/-- The store the caller continues with (`main.rs` ignores `Err`). -/
def Outcome.next : Outcome → Option Store
  | Outcome.ok s => some s
  | Outcome.err _ s => some s
  | Outcome.panic => none

/-- `Store::handle_deposit` (src/store.rs lines 163-183). -/
def handle_deposit (s : Store) (txid client : Nat) (amount : Rat) : Outcome :=
  if amount < 0 then Outcome.panic
  else
    let p := s.get_account client
    let s1 := p.2.setAccount client { p.1 with available := p.1.available + amount }
    Outcome.ok (s1.setTx txid ⟨txid, TxType.Deposit, client, amount, DisputeState.Normal⟩)

/-- `Store::handle_withdrawal` (src/store.rs lines 185-206). -/
def handle_withdrawal (s : Store) (txid client : Nat) (amount : Rat) : Outcome :=
  if amount < 0 then Outcome.panic
  else
    let p := s.get_account client
    match p.1.need amount with
    | some e => Outcome.err e p.2
    | none =>
        let s1 := p.2.setAccount client { p.1 with available := p.1.available - amount }
        Outcome.ok (s1.setTx txid ⟨txid, TxType.Withdrawal, client, amount, DisputeState.Normal⟩)

/-- `Store::handle_dispute` (src/store.rs lines 208-240).  Note the source
order: the dispute mark is written to `history` before the funds check. -/
def handle_dispute (s : Store) (client txid : Nat) : Outcome :=
  match findA s.history txid with
  | none => Outcome.err (Error.TxNotFound txid) s
  | some tx =>
      if tx.dispute_state ≠ DisputeState.Normal then
        Outcome.err (Error.TxInWrongState txid TxType.Dispute tx.dispute_state) s
      else if ¬ (tx.tp = TxType.Withdrawal ∨ tx.tp = TxType.Deposit) then Outcome.panic
      else
        let s1 := s.setTx txid { tx with dispute_state := DisputeState.Disputed }
        let p := s1.get_account client
        match p.1.need tx.amount with
        | some e => Outcome.err e p.2
        | none => Outcome.ok (p.2.setAccount client
            { p.1 with available := p.1.available - tx.amount,
                       held := p.1.held + tx.amount })

/-- `Store::handle_resolve` (src/store.rs lines 242-263). -/
def handle_resolve (s : Store) (client txid : Nat) : Outcome :=
  match findA s.history txid with
  | none => Outcome.err (Error.TxNotFound txid) s
  | some tx =>
      if tx.dispute_state ≠ DisputeState.Disputed then
        Outcome.err (Error.TxInWrongState txid TxType.Resolve tx.dispute_state) s
      else
        let s1 := s.setTx txid { tx with dispute_state := DisputeState.Resolved }
        let p := s1.get_account client
        if p.1.held < tx.amount then Outcome.panic
        else Outcome.ok (p.2.setAccount client
            { p.1 with available := p.1.available + tx.amount,
                       held := p.1.held - tx.amount })

/-- `Store::handle_chargeback` (src/store.rs lines 265-286). -/
def handle_chargeback (s : Store) (client txid : Nat) : Outcome :=
  match findA s.history txid with
  | none => Outcome.err (Error.TxNotFound txid) s
  | some tx =>
      if tx.dispute_state ≠ DisputeState.Disputed then
        Outcome.err (Error.TxInWrongState txid TxType.Chargeback tx.dispute_state) s
      else
        let s1 := s.setTx txid { tx with dispute_state := DisputeState.ChargedBack }
        let p := s1.get_account client
        if p.1.held < tx.amount then Outcome.panic
        else Outcome.ok (p.2.setAccount client
            { p.1 with held := p.1.held - tx.amount, locked := true })

/-- One input record, dispatched as in `main.rs` lines 65-72. -/
inductive Op where
  | deposit (txid client : Nat) (amount : Rat)
  | withdrawal (txid client : Nat) (amount : Rat)
  | dispute (client txid : Nat)
  | resolve (client txid : Nat)
  | chargeback (client txid : Nat)
deriving DecidableEq, Repr

/-- Dispatch of one record to the matching `Store` method. -/
def step (s : Store) : Op → Outcome
  | Op.deposit t c a => handle_deposit s t c a
  | Op.withdrawal t c a => handle_withdrawal s t c a
  | Op.dispute c t => handle_dispute s c t
  | Op.resolve c t => handle_resolve s c t
  | Op.chargeback c t => handle_chargeback s c t

/-- Folding a record sequence over the store, errors ignored as in `main.rs`
(a panic aborts the process: no final store). -/
def runOps : Store → List Op → Option Store
  | s, [] => some s
  | s, op :: rest =>
      match (step s op).next with
      | none => none
      | some s' => runOps s' rest

/-- States reachable from the empty ledger by any sequence of calls. -/
inductive Reachable : Store → Prop where
  | init : Reachable Store.empty
  | next {s s' : Store} (op : Op) :
      Reachable s → (step s op).next = some s' → Reachable s'

/-- The account the Rust `get_account` hands out: the stored one, or a fresh
zero-balance account when the client is unknown. -/
def Store.acct (s : Store) (c : Nat) : Account :=
  (findA s.accounts c).getD (Account.new c)

/-- The operations that only reference an existing history entry
(`dispute`, `resolve`, `chargeback` records carry no amount). -/
def Op.refOnly : Op → Bool
  | Op.dispute _ _ => true
  | Op.resolve _ _ => true
  | Op.chargeback _ _ => true
  | _ => false

/-- The allowed one-step moves of `dispute_state`:
Normal → Disputed → (Resolved | ChargedBack), or staying put. -/
def DisputeState.order (x y : DisputeState) : Prop :=
  x = y ∨ (x = DisputeState.Normal ∧ y = DisputeState.Disputed) ∨
    (x = DisputeState.Disputed ∧
      (y = DisputeState.Resolved ∨ y = DisputeState.ChargedBack))

/-- Applying a store transformation to the state inside an outcome. -/
def Outcome.mapStore (f : Store → Store) : Outcome → Outcome
  | Outcome.ok s => Outcome.ok (f s)
  | Outcome.err e s => Outcome.err e (f s)
  | Outcome.panic => Outcome.panic

/-- Forcing the `locked` flag of client `c` on (no-op when `c` is unknown). -/
def Store.lockOn (s : Store) (c : Nat) : Store :=
  match findA s.accounts c with
  | none => s
  | some a => s.setAccount c { a with locked := true }

/-- The inductive invariant maintained by every call: every stored account
has non-negative `held`, and every history entry has a non-negative amount. -/
def LedgerInv (s : Store) : Prop :=
  (∀ c a, findA s.accounts c = some a → 0 ≤ a.held) ∧
  (∀ t tx, findA s.history t = some tx → 0 ≤ tx.amount)

/-- A store whose only history entry sits in the terminal `Resolved` state
(what a deposit, dispute, resolve sequence produces for client 100). -/
def wrongStateStore : Store :=
  ⟨[(100, ⟨100, 2, 0, false⟩)],
   [(1, ⟨1, TxType.Deposit, 100, 5, DisputeState.Resolved⟩)]⟩

theorem acct_def (s : Store) (c : Nat) :
    (findA s.accounts c).getD (Account.new c) = s.acct c := rfl

theorem findA_insertA {α : Type} (l : List (Nat × α)) (k : Nat) (v : α) (k' : Nat) :
    findA (insertA l k v) k' = if k' = k then some v else findA l k' := by
  induction l with
  | nil => simp [insertA, findA]
  | cons p rest ih =>
      obtain ⟨k0, v0⟩ := p
      by_cases hk : k = k0
      · subst hk
        by_cases h' : k' = k <;> simp [insertA, findA, h']
      · by_cases h' : k' = k0
        · subst h'
          have hne : k' ≠ k := fun h => hk h.symm
          simp [insertA, findA, hk, hne]
        · simp [insertA, findA, hk, h', ih]

theorem findA_insertA_self {α : Type} (l : List (Nat × α)) (k : Nat) (v : α) :
    findA (insertA l k v) k = some v := by
  simp [findA_insertA]

theorem findA_insertA_ne {α : Type} (l : List (Nat × α)) (k : Nat) (v : α)
    (k' : Nat) (h : k' ≠ k) : findA (insertA l k v) k' = findA l k' := by
  simp [findA_insertA, h]

theorem insertA_insertA {α : Type} (l : List (Nat × α)) (k : Nat) (v v' : α) :
    insertA (insertA l k v) k v' = insertA l k v' := by
  induction l with
  | nil => simp [insertA]
  | cons p rest ih =>
      obtain ⟨k0, v0⟩ := p
      by_cases hk : k = k0 <;> simp [insertA, hk, ih]

theorem insertA_comm {α : Type} {l : List (Nat × α)} {c d : Nat} (hne : c ≠ d)
    {a : α} (hc : findA l c = some a) (v w : α) :
    insertA (insertA l c v) d w = insertA (insertA l d w) c v := by
  induction l with
  | nil => simp [findA] at hc
  | cons p rest ih =>
      obtain ⟨k0, v0⟩ := p
      by_cases hck : c = k0
      · subst hck
        simp [insertA, hne, Ne.symm hne]
      · by_cases hdk : d = k0
        · subst hdk
          simp [insertA, hck, hne, Ne.symm hck]
        · simp [findA, hck] at hc
          simp [insertA, hck, hdk, ih hc]

/-- Unfolding of `handle_deposit` under the `amount ≥ 0` contract. -/
theorem handle_deposit_eq (s : Store) (txid c : Nat) (amt : Rat) (h : 0 ≤ amt) :
    handle_deposit s txid c amt = Outcome.ok
      { accounts := insertA s.accounts c
          { s.acct c with available := (s.acct c).available + amt },
        history := insertA s.history txid
          ⟨txid, TxType.Deposit, c, amt, DisputeState.Normal⟩ } := by
  simp [handle_deposit, Store.get_account, Store.setAccount, Store.setTx,
    not_lt.mpr h, insertA_insertA, Store.acct]

/-- Unfolding of `handle_withdrawal`, failing branch. -/
theorem handle_withdrawal_err (s : Store) (txid c : Nat) (amt : Rat)
    (h : 0 ≤ amt) (hin : (s.acct c).available < amt) :
    handle_withdrawal s txid c amt =
      Outcome.err (Error.InsufficientFunds (s.acct c).available amt)
        { s with accounts := insertA s.accounts c (s.acct c) } := by
  have hin' := not_le.mpr hin
  simp [handle_withdrawal, Store.get_account, Store.setAccount, Store.setTx,
    not_lt.mpr h, Account.need, acct_def, hin']

/-- Unfolding of `handle_withdrawal`, successful branch. -/
theorem handle_withdrawal_ok (s : Store) (txid c : Nat) (amt : Rat)
    (h : 0 ≤ amt) (hav : amt ≤ (s.acct c).available) :
    handle_withdrawal s txid c amt = Outcome.ok
      { accounts := insertA s.accounts c
          { s.acct c with available := (s.acct c).available - amt },
        history := insertA s.history txid
          ⟨txid, TxType.Withdrawal, c, amt, DisputeState.Normal⟩ } := by
  simp [handle_withdrawal, Store.get_account, Store.setAccount, Store.setTx,
    not_lt.mpr h, Account.need, acct_def, hav, insertA_insertA]

/-- Unfolding of `handle_dispute`: unknown txid. -/
theorem handle_dispute_notfound (s : Store) (c t : Nat)
    (h : findA s.history t = none) :
    handle_dispute s c t = Outcome.err (Error.TxNotFound t) s := by
  simp [handle_dispute, h]

/-- Unfolding of `handle_dispute`: entry not `Normal`. -/
theorem handle_dispute_wrongstate (s : Store) (c t : Nat) (tx : Tx)
    (h : findA s.history t = some tx)
    (hst : tx.dispute_state ≠ DisputeState.Normal) :
    handle_dispute s c t =
      Outcome.err (Error.TxInWrongState t TxType.Dispute tx.dispute_state) s := by
  simp [handle_dispute, h, hst]

/-- Unfolding of `handle_dispute`: fund check fails, yet the dispute mark and
the lazily created account are already written. -/
theorem handle_dispute_insufficient (s : Store) (c t : Nat) (tx : Tx)
    (h : findA s.history t = some tx)
    (hst : tx.dispute_state = DisputeState.Normal)
    (htp : tx.tp = TxType.Withdrawal ∨ tx.tp = TxType.Deposit)
    (hin : (s.acct c).available < tx.amount) :
    handle_dispute s c t =
      Outcome.err (Error.InsufficientFunds (s.acct c).available tx.amount)
        { accounts := insertA s.accounts c (s.acct c),
          history := insertA s.history t
            { tx with dispute_state := DisputeState.Disputed } } := by
  have hin' := not_le.mpr hin
  simp [handle_dispute, h, hst, htp, Store.setTx, Store.get_account,
    Account.need, acct_def, hin']

/-- Unfolding of `handle_dispute`: successful branch. -/
theorem handle_dispute_ok (s : Store) (c t : Nat) (tx : Tx)
    (h : findA s.history t = some tx)
    (hst : tx.dispute_state = DisputeState.Normal)
    (htp : tx.tp = TxType.Withdrawal ∨ tx.tp = TxType.Deposit)
    (hav : tx.amount ≤ (s.acct c).available) :
    handle_dispute s c t = Outcome.ok
      { accounts := insertA s.accounts c
          { s.acct c with available := (s.acct c).available - tx.amount,
                          held := (s.acct c).held + tx.amount },
        history := insertA s.history t
          { tx with dispute_state := DisputeState.Disputed } } := by
  simp [handle_dispute, h, hst, htp, Store.setTx, Store.setAccount,
    Store.get_account, Account.need, acct_def, hav, insertA_insertA]

/-- Unfolding of `handle_resolve`: unknown txid. -/
theorem handle_resolve_notfound (s : Store) (c t : Nat)
    (h : findA s.history t = none) :
    handle_resolve s c t = Outcome.err (Error.TxNotFound t) s := by
  simp [handle_resolve, h]

/-- Unfolding of `handle_resolve`: entry not `Disputed`. -/
theorem handle_resolve_wrongstate (s : Store) (c t : Nat) (tx : Tx)
    (h : findA s.history t = some tx)
    (hst : tx.dispute_state ≠ DisputeState.Disputed) :
    handle_resolve s c t =
      Outcome.err (Error.TxInWrongState t TxType.Resolve tx.dispute_state) s := by
  simp [handle_resolve, h, hst]

/-- Unfolding of `handle_resolve`: successful branch. -/
theorem handle_resolve_ok (s : Store) (c t : Nat) (tx : Tx)
    (h : findA s.history t = some tx)
    (hst : tx.dispute_state = DisputeState.Disputed)
    (hheld : tx.amount ≤ (s.acct c).held) :
    handle_resolve s c t = Outcome.ok
      { accounts := insertA s.accounts c
          { s.acct c with available := (s.acct c).available + tx.amount,
                          held := (s.acct c).held - tx.amount },
        history := insertA s.history t
          { tx with dispute_state := DisputeState.Resolved } } := by
  have hh := not_lt.mpr hheld
  simp [handle_resolve, h, hst, Store.setTx, Store.setAccount,
    Store.get_account, acct_def, hh, insertA_insertA]

/-- Unfolding of `handle_chargeback`: unknown txid. -/
theorem handle_chargeback_notfound (s : Store) (c t : Nat)
    (h : findA s.history t = none) :
    handle_chargeback s c t = Outcome.err (Error.TxNotFound t) s := by
  simp [handle_chargeback, h]

/-- Unfolding of `handle_chargeback`: entry not `Disputed`. -/
theorem handle_chargeback_wrongstate (s : Store) (c t : Nat) (tx : Tx)
    (h : findA s.history t = some tx)
    (hst : tx.dispute_state ≠ DisputeState.Disputed) :
    handle_chargeback s c t =
      Outcome.err (Error.TxInWrongState t TxType.Chargeback tx.dispute_state) s := by
  simp [handle_chargeback, h, hst]

/-- Unfolding of `handle_chargeback`: successful branch. -/
theorem handle_chargeback_ok (s : Store) (c t : Nat) (tx : Tx)
    (h : findA s.history t = some tx)
    (hst : tx.dispute_state = DisputeState.Disputed)
    (hheld : tx.amount ≤ (s.acct c).held) :
    handle_chargeback s c t = Outcome.ok
      { accounts := insertA s.accounts c
          { s.acct c with held := (s.acct c).held - tx.amount, locked := true },
        history := insertA s.history t
          { tx with dispute_state := DisputeState.ChargedBack } } := by
  have hh := not_lt.mpr hheld
  simp [handle_chargeback, h, hst, Store.setTx, Store.setAccount,
    Store.get_account, acct_def, hh, insertA_insertA]

/-- Unfolding of `handle_dispute`: the `assert!` on the entry type. -/
theorem handle_dispute_panic (s : Store) (c t : Nat) (tx : Tx)
    (h : findA s.history t = some tx)
    (hst : tx.dispute_state = DisputeState.Normal)
    (htp : ¬ (tx.tp = TxType.Withdrawal ∨ tx.tp = TxType.Deposit)) :
    handle_dispute s c t = Outcome.panic := by
  simp [handle_dispute, h, hst, htp]

/-- Unfolding of `handle_resolve`: the `assert!(account.held >= amount)`. -/
theorem handle_resolve_panic (s : Store) (c t : Nat) (tx : Tx)
    (h : findA s.history t = some tx)
    (hst : tx.dispute_state = DisputeState.Disputed)
    (hlt : (s.acct c).held < tx.amount) :
    handle_resolve s c t = Outcome.panic := by
  simp [handle_resolve, h, hst, Store.setTx, Store.get_account, acct_def, hlt]

/-- Unfolding of `handle_chargeback`: the `assert!(account.held >= amount)`. -/
theorem handle_chargeback_panic (s : Store) (c t : Nat) (tx : Tx)
    (h : findA s.history t = some tx)
    (hst : tx.dispute_state = DisputeState.Disputed)
    (hlt : (s.acct c).held < tx.amount) :
    handle_chargeback s c t = Outcome.panic := by
  simp [handle_chargeback, h, hst, Store.setTx, Store.get_account, acct_def, hlt]

/-- C9: for every txid, client and `amount ≥ 0`, Deposit always succeeds (no
assertion fires): it adds exactly `amount` to the account's available balance
(creating the account with zero balances when absent), inserts the history
entry `{txid, Deposit, client, amount, Normal}` overwriting any prior entry
with that txid, and touches no other account or history entry. -/
theorem C9_deposit_total (s : Store) (txid c : Nat) (amt : Rat) (h : 0 ≤ amt) :
    handle_deposit s txid c amt = Outcome.ok
      ⟨insertA s.accounts c
          { s.acct c with available := (s.acct c).available + amt },
        insertA s.history txid
          ⟨txid, TxType.Deposit, c, amt, DisputeState.Normal⟩⟩ ∧
    findA (insertA s.accounts c
        { s.acct c with available := (s.acct c).available + amt }) c =
      some { s.acct c with available := (s.acct c).available + amt } ∧
    (∀ d, d ≠ c →
      findA (insertA s.accounts c
        { s.acct c with available := (s.acct c).available + amt }) d =
      findA s.accounts d) ∧
    findA (insertA s.history txid
        ⟨txid, TxType.Deposit, c, amt, DisputeState.Normal⟩) txid =
      some ⟨txid, TxType.Deposit, c, amt, DisputeState.Normal⟩ ∧
    (∀ u, u ≠ txid →
      findA (insertA s.history txid
        ⟨txid, TxType.Deposit, c, amt, DisputeState.Normal⟩) u =
      findA s.history u) := by
  refine ⟨handle_deposit_eq s txid c amt h, findA_insertA_self _ _ _,
    fun d hd => findA_insertA_ne _ _ _ _ hd, findA_insertA_self _ _ _,
    fun u hu => findA_insertA_ne _ _ _ _ hu⟩

/-- Witness for C9 at the concrete input of spec §8 Scenario 1. -/
theorem C9_deposit_total_witness :
    handle_deposit Store.empty 1 100 5 = Outcome.ok
      ⟨insertA Store.empty.accounts 100
          { Store.empty.acct 100 with
              available := (Store.empty.acct 100).available + 5 },
        insertA Store.empty.history 1
          ⟨1, TxType.Deposit, 100, 5, DisputeState.Normal⟩⟩ :=
  (C9_deposit_total Store.empty 1 100 5 (by norm_num)).1

/-- C5 counterexample: the claim also asserts "in that case the ledger is
unchanged", but a failing Withdrawal for an unknown client still creates the
account (`get_account` uses `entry().or_insert_with`), so the accounts map
differs from the empty ledger after the failed call. -/
theorem C5_counterexample :
    handle_withdrawal Store.empty 1 7 1 =
      Outcome.err (Error.InsufficientFunds 0 1) ⟨[(7, Account.new 7)], []⟩ ∧
    (⟨[(7, Account.new 7)], []⟩ : Store) ≠ Store.empty := by
  constructor
  · norm_num [handle_withdrawal, Store.get_account, Store.empty, findA,
      insertA, Account.need, Account.new]
  · simp [Store.empty, Store.mk.injEq]

/-- C5 (amended): for `amount ≥ 0`, Withdrawal fails with
`InsufficientFunds{available, required: amount}` exactly when the account's
available is strictly below `amount`; in that case the history and every
account are unchanged, except that the referenced account is created with
zero balances when absent.  Otherwise it subtracts `amount` from available
and inserts/overwrites the history entry
`{txid, Withdrawal, client, amount, Normal}`. -/
theorem C5_withdrawal_amended (s : Store) (txid c : Nat) (amt : Rat)
    (h : 0 ≤ amt) :
    ((s.acct c).available < amt →
      handle_withdrawal s txid c amt =
        Outcome.err (Error.InsufficientFunds (s.acct c).available amt)
          { s with accounts := insertA s.accounts c (s.acct c) } ∧
      (∀ d, findA (insertA s.accounts c (s.acct c)) d =
        if d = c then some (s.acct c) else findA s.accounts d)) ∧
    (amt ≤ (s.acct c).available →
      handle_withdrawal s txid c amt = Outcome.ok
        ⟨insertA s.accounts c
            { s.acct c with available := (s.acct c).available - amt },
          insertA s.history txid
            ⟨txid, TxType.Withdrawal, c, amt, DisputeState.Normal⟩⟩ ∧
      findA (insertA s.accounts c
          { s.acct c with available := (s.acct c).available - amt }) c =
        some { s.acct c with available := (s.acct c).available - amt } ∧
      (∀ d, d ≠ c →
        findA (insertA s.accounts c
          { s.acct c with available := (s.acct c).available - amt }) d =
        findA s.accounts d) ∧
      findA (insertA s.history txid
          ⟨txid, TxType.Withdrawal, c, amt, DisputeState.Normal⟩) txid =
        some ⟨txid, TxType.Withdrawal, c, amt, DisputeState.Normal⟩ ∧
      (∀ u, u ≠ txid →
        findA (insertA s.history txid
          ⟨txid, TxType.Withdrawal, c, amt, DisputeState.Normal⟩) u =
        findA s.history u)) := by
  constructor
  · intro hin
    refine ⟨handle_withdrawal_err s txid c amt h hin, fun d => ?_⟩
    by_cases hd : d = c
    · subst hd; simp [findA_insertA_self]
    · simp [findA_insertA_ne _ _ _ _ hd, hd]
  · intro hav
    exact ⟨handle_withdrawal_ok s txid c amt h hav, findA_insertA_self _ _ _,
      fun d hd => findA_insertA_ne _ _ _ _ hd, findA_insertA_self _ _ _,
      fun u hu => findA_insertA_ne _ _ _ _ hu⟩

/-- Witness for C5 (amended) at the concrete input of spec §8 Scenario 2. -/
theorem C5_withdrawal_amended_witness :
    handle_withdrawal Store.empty 1 7 1 =
      Outcome.err (Error.InsufficientFunds (Store.empty.acct 7).available 1)
        { Store.empty with
            accounts := insertA Store.empty.accounts 7 (Store.empty.acct 7) } :=
  (((C5_withdrawal_amended Store.empty 1 7 1 (by norm_num)).1
    (by norm_num [Store.acct, Store.empty, findA, Account.new]))).1

/-- C6: Dispute, Resolve and Chargeback on a txid whose entry is not in the
required source state return `TxInWrongState{txid, action, state}` carrying
the entry's current state, and the whole ledger (hence the affected account's
summary) is identical before and after the call. -/
theorem C6_wrong_state_frame (s : Store) (c t : Nat) (tx : Tx)
    (h : findA s.history t = some tx) :
    (tx.dispute_state ≠ DisputeState.Normal →
      handle_dispute s c t =
        Outcome.err (Error.TxInWrongState t TxType.Dispute tx.dispute_state) s) ∧
    (tx.dispute_state ≠ DisputeState.Disputed →
      handle_resolve s c t =
        Outcome.err (Error.TxInWrongState t TxType.Resolve tx.dispute_state) s ∧
      handle_chargeback s c t =
        Outcome.err (Error.TxInWrongState t TxType.Chargeback tx.dispute_state) s) :=
  ⟨fun hst => handle_dispute_wrongstate s c t tx h hst,
   fun hst => ⟨handle_resolve_wrongstate s c t tx h hst,
               handle_chargeback_wrongstate s c t tx h hst⟩⟩

/-- Witness for C6 on a store whose entry 1 is in the terminal `Resolved`
state: all three calls fail with the current state and return the store
untouched. -/
theorem C6_wrong_state_frame_witness :
    handle_dispute wrongStateStore 100 1 =
      Outcome.err (Error.TxInWrongState 1 TxType.Dispute DisputeState.Resolved)
        wrongStateStore ∧
    handle_resolve wrongStateStore 100 1 =
      Outcome.err (Error.TxInWrongState 1 TxType.Resolve DisputeState.Resolved)
        wrongStateStore ∧
    handle_chargeback wrongStateStore 100 1 =
      Outcome.err (Error.TxInWrongState 1 TxType.Chargeback DisputeState.Resolved)
        wrongStateStore := by
  have h := C6_wrong_state_frame wrongStateStore 100 1
    ⟨1, TxType.Deposit, 100, 5, DisputeState.Resolved⟩
    (by norm_num [wrongStateStore, findA])
  exact ⟨h.1 (by decide), (h.2 (by decide)).1, (h.2 (by decide)).2⟩

/-- C4: a successful Deposit immediately followed by a successful Dispute and
then a successful Resolve (same client, same txid) restores the account's
available and held to their exact pre-dispute values (the values right after
the Deposit), with no rounding drift. -/
theorem C4_dispute_resolve_roundtrip (s s₁ s₂ s₃ : Store) (txid c : Nat)
    (amt : Rat) (h0 : 0 ≤ amt)
    (h₁ : handle_deposit s txid c amt = Outcome.ok s₁)
    (h₂ : handle_dispute s₁ c txid = Outcome.ok s₂)
    (h₃ : handle_resolve s₂ c txid = Outcome.ok s₃) :
    (findA s₃.accounts c).map (fun a => (a.available, a.held)) =
      (findA s₁.accounts c).map (fun a => (a.available, a.held)) := by
  rw [handle_deposit_eq s txid c amt h0] at h₁
  injection h₁ with h₁
  subst h₁
  set a1 : Account :=
    { s.acct c with available := (s.acct c).available + amt } with ha1
  set e1 : Tx := ⟨txid, TxType.Deposit, c, amt, DisputeState.Normal⟩ with he1
  set S1 : Store := ⟨insertA s.accounts c a1, insertA s.history txid e1⟩
    with hS1
  have htx₁ : findA S1.history txid = some e1 := findA_insertA_self _ _ _
  have hacc₁ : S1.acct c = a1 := by
    simp [Store.acct, hS1, findA_insertA_self]
  by_cases hav : e1.amount ≤ (S1.acct c).available
  · rw [handle_dispute_ok S1 c txid e1 htx₁ rfl (Or.inr rfl) hav] at h₂
    injection h₂ with h₂
    subst h₂
    set a2 : Account :=
      { S1.acct c with available := (S1.acct c).available - e1.amount,
                       held := (S1.acct c).held + e1.amount } with ha2
    set e2 : Tx := { e1 with dispute_state := DisputeState.Disputed } with he2
    set S2 : Store := ⟨insertA S1.accounts c a2, insertA S1.history txid e2⟩
      with hS2
    have htx₂ : findA S2.history txid = some e2 := findA_insertA_self _ _ _
    have hacc₂ : S2.acct c = a2 := by
      simp [Store.acct, hS2, findA_insertA_self]
    by_cases hheld : e2.amount ≤ (S2.acct c).held
    · rw [handle_resolve_ok S2 c txid e2 htx₂ rfl hheld] at h₃
      injection h₃ with h₃
      subst h₃
      simp [findA_insertA_self, hacc₂, ha2, hacc₁, he2, he1]
    · rw [handle_resolve_panic S2 c txid e2 htx₂ rfl (not_le.mp hheld)] at h₃
      cases h₃
  · rw [handle_dispute_insufficient S1 c txid e1 htx₁ rfl (Or.inr rfl)
      (not_le.mp hav)] at h₂
    cases h₂

/-- Witness for C4 at a concrete run: Deposit(1,100,5), Dispute(100,1),
Resolve(100,1) from the empty ledger. -/
theorem C4_dispute_resolve_roundtrip_witness :
    (findA (⟨[(100, ⟨100, 5, 0, false⟩)],
             [(1, ⟨1, TxType.Deposit, 100, 5, DisputeState.Resolved⟩)]⟩ :
        Store).accounts 100).map (fun a => (a.available, a.held)) =
    (findA (⟨[(100, ⟨100, 5, 0, false⟩)],
             [(1, ⟨1, TxType.Deposit, 100, 5, DisputeState.Normal⟩)]⟩ :
        Store).accounts 100).map (fun a => (a.available, a.held)) :=
  C4_dispute_resolve_roundtrip Store.empty
    ⟨[(100, ⟨100, 5, 0, false⟩)],
     [(1, ⟨1, TxType.Deposit, 100, 5, DisputeState.Normal⟩)]⟩
    ⟨[(100, ⟨100, 0, 5, false⟩)],
     [(1, ⟨1, TxType.Deposit, 100, 5, DisputeState.Disputed⟩)]⟩
    ⟨[(100, ⟨100, 5, 0, false⟩)],
     [(1, ⟨1, TxType.Deposit, 100, 5, DisputeState.Resolved⟩)]⟩
    1 100 5 (by norm_num)
    (by norm_num [handle_deposit, Store.get_account, Store.setAccount,
      Store.setTx, Store.empty, Account.new, findA, insertA])
    (by norm_num [handle_dispute, Account.need, Store.get_account,
      Store.setAccount, Store.setTx, Account.new, findA, insertA])
    (by norm_num [handle_resolve, Store.get_account, Store.setAccount,
      Store.setTx, Account.new, findA, insertA])

/-- C1 evidence: from the reachable state produced by Deposit(1,100,5) then
Withdrawal(2,100,3), the call Dispute(100,1) returns the recoverable error
`InsufficientFunds{available: 2, required: 5}` yet the history map HAS
changed: the referenced transaction's dispute state is `Disputed`, not
`Normal`, because the source marks the dispute before the funds check. -/
theorem C1_evidence :
    Reachable ⟨[(100, ⟨100, 2, 0, false⟩)],
               [(1, ⟨1, TxType.Deposit, 100, 5, DisputeState.Normal⟩),
                (2, ⟨2, TxType.Withdrawal, 100, 3, DisputeState.Normal⟩)]⟩ ∧
    handle_dispute
      ⟨[(100, ⟨100, 2, 0, false⟩)],
       [(1, ⟨1, TxType.Deposit, 100, 5, DisputeState.Normal⟩),
        (2, ⟨2, TxType.Withdrawal, 100, 3, DisputeState.Normal⟩)]⟩ 100 1 =
      Outcome.err (Error.InsufficientFunds 2 5)
        ⟨[(100, ⟨100, 2, 0, false⟩)],
         [(1, ⟨1, TxType.Deposit, 100, 5, DisputeState.Disputed⟩),
          (2, ⟨2, TxType.Withdrawal, 100, 3, DisputeState.Normal⟩)]⟩ ∧
    (⟨[(100, ⟨100, 2, 0, false⟩)],
      [(1, ⟨1, TxType.Deposit, 100, 5, DisputeState.Disputed⟩),
       (2, ⟨2, TxType.Withdrawal, 100, 3, DisputeState.Normal⟩)]⟩ : Store) ≠
    ⟨[(100, ⟨100, 2, 0, false⟩)],
     [(1, ⟨1, TxType.Deposit, 100, 5, DisputeState.Normal⟩),
      (2, ⟨2, TxType.Withdrawal, 100, 3, DisputeState.Normal⟩)]⟩ := by
  refine ⟨?_, ?_, ?_⟩
  · have r1 : Reachable
        ⟨[(100, ⟨100, 5, 0, false⟩)],
         [(1, ⟨1, TxType.Deposit, 100, 5, DisputeState.Normal⟩)]⟩ :=
      Reachable.next (Op.deposit 1 100 5) Reachable.init
        (by norm_num [step, handle_deposit, Store.get_account,
          Store.setAccount, Store.setTx, Store.empty, Account.new, findA,
          insertA, Outcome.next])
    exact Reachable.next (Op.withdrawal 2 100 3) r1
      (by norm_num [step, handle_withdrawal, Account.need, Store.get_account,
        Store.setAccount, Store.setTx, Account.new, findA, insertA,
        Outcome.next])
  · norm_num [handle_dispute, Account.need, Store.get_account,
      Store.setAccount, Store.setTx, Account.new, findA, insertA]
  · simp [Store.mk.injEq]

/-- C2 counterexample: the state below is reachable (Deposit(1,client 1,5),
Deposit(2,client 2,5), then Dispute(client 2, tx 1), which the source accepts
because the `client` argument is never cross-checked against the entry's
recorded owner).  Transaction 1 is `Disputed` and owned by client 1, but
client 1's `held` is 0, so the disputed amount 5 is not reflected in the
owning account's held balance. -/
theorem C2_counterexample :
    Reachable ⟨[(1, ⟨1, 5, 0, false⟩), (2, ⟨2, 0, 5, false⟩)],
               [(1, ⟨1, TxType.Deposit, 1, 5, DisputeState.Disputed⟩),
                (2, ⟨2, TxType.Deposit, 2, 5, DisputeState.Normal⟩)]⟩ ∧
    findA (⟨[(1, ⟨1, 5, 0, false⟩), (2, ⟨2, 0, 5, false⟩)],
            [(1, ⟨1, TxType.Deposit, 1, 5, DisputeState.Disputed⟩),
             (2, ⟨2, TxType.Deposit, 2, 5, DisputeState.Normal⟩)]⟩ :
        Store).history 1 =
      some ⟨1, TxType.Deposit, 1, 5, DisputeState.Disputed⟩ ∧
    findA (⟨[(1, ⟨1, 5, 0, false⟩), (2, ⟨2, 0, 5, false⟩)],
            [(1, ⟨1, TxType.Deposit, 1, 5, DisputeState.Disputed⟩),
             (2, ⟨2, TxType.Deposit, 2, 5, DisputeState.Normal⟩)]⟩ :
        Store).accounts 1 = some ⟨1, 5, 0, false⟩ ∧
    ¬ ((⟨1, TxType.Deposit, 1, 5, DisputeState.Disputed⟩ : Tx).amount ≤
       (⟨1, 5, 0, false⟩ : Account).held) := by
  refine ⟨?_, ?_, ?_, ?_⟩
  · have r1 : Reachable
        ⟨[(1, ⟨1, 5, 0, false⟩)],
         [(1, ⟨1, TxType.Deposit, 1, 5, DisputeState.Normal⟩)]⟩ :=
      Reachable.next (Op.deposit 1 1 5) Reachable.init
        (by norm_num [step, handle_deposit, Store.get_account,
          Store.setAccount, Store.setTx, Store.empty, Account.new, findA,
          insertA, Outcome.next])
    have r2 : Reachable
        ⟨[(1, ⟨1, 5, 0, false⟩), (2, ⟨2, 5, 0, false⟩)],
         [(1, ⟨1, TxType.Deposit, 1, 5, DisputeState.Normal⟩),
          (2, ⟨2, TxType.Deposit, 2, 5, DisputeState.Normal⟩)]⟩ :=
      Reachable.next (Op.deposit 2 2 5) r1
        (by norm_num [step, handle_deposit, Store.get_account,
          Store.setAccount, Store.setTx, Account.new, findA, insertA,
          Outcome.next])
    exact Reachable.next (Op.dispute 2 1) r2
      (by norm_num [step, handle_dispute, Account.need, Store.get_account,
        Store.setAccount, Store.setTx, Account.new, findA, insertA,
        Outcome.next])
  · norm_num [findA]
  · norm_num [findA]
  · norm_num

/-- C3 counterexample: after Deposit(1, client 1, 5), Dispute, Resolve, the
entry for txid 1 is in the terminal `Resolved` state, yet a later
Deposit(1, client 1, 2) reusing the txid overwrites the entry (last write
wins), leaving it `Normal`: the history entry for that txid left its terminal
state. -/
theorem C3_counterexample :
    Reachable ⟨[(1, ⟨1, 5, 0, false⟩)],
               [(1, ⟨1, TxType.Deposit, 1, 5, DisputeState.Resolved⟩)]⟩ ∧
    findA (⟨[(1, ⟨1, 5, 0, false⟩)],
            [(1, ⟨1, TxType.Deposit, 1, 5, DisputeState.Resolved⟩)]⟩ :
        Store).history 1 =
      some ⟨1, TxType.Deposit, 1, 5, DisputeState.Resolved⟩ ∧
    (step ⟨[(1, ⟨1, 5, 0, false⟩)],
           [(1, ⟨1, TxType.Deposit, 1, 5, DisputeState.Resolved⟩)]⟩
        (Op.deposit 1 1 2)).next =
      some ⟨[(1, ⟨1, 7, 0, false⟩)],
            [(1, ⟨1, TxType.Deposit, 1, 2, DisputeState.Normal⟩)]⟩ ∧
    findA (⟨[(1, ⟨1, 7, 0, false⟩)],
            [(1, ⟨1, TxType.Deposit, 1, 2, DisputeState.Normal⟩)]⟩ :
        Store).history 1 =
      some ⟨1, TxType.Deposit, 1, 2, DisputeState.Normal⟩ ∧
    (⟨1, TxType.Deposit, 1, 2, DisputeState.Normal⟩ : Tx).dispute_state ≠
      DisputeState.Resolved := by
  refine ⟨?_, ?_, ?_, ?_, ?_⟩
  · have r1 : Reachable
        ⟨[(1, ⟨1, 5, 0, false⟩)],
         [(1, ⟨1, TxType.Deposit, 1, 5, DisputeState.Normal⟩)]⟩ :=
      Reachable.next (Op.deposit 1 1 5) Reachable.init
        (by norm_num [step, handle_deposit, Store.get_account,
          Store.setAccount, Store.setTx, Store.empty, Account.new, findA,
          insertA, Outcome.next])
    have r2 : Reachable
        ⟨[(1, ⟨1, 0, 5, false⟩)],
         [(1, ⟨1, TxType.Deposit, 1, 5, DisputeState.Disputed⟩)]⟩ :=
      Reachable.next (Op.dispute 1 1) r1
        (by norm_num [step, handle_dispute, Account.need, Store.get_account,
          Store.setAccount, Store.setTx, Account.new, findA, insertA,
          Outcome.next])
    exact Reachable.next (Op.resolve 1 1) r2
      (by norm_num [step, handle_resolve, Store.get_account,
        Store.setAccount, Store.setTx, Account.new, findA, insertA,
        Outcome.next])
  · norm_num [findA]
  · norm_num [step, handle_deposit, Store.get_account, Store.setAccount,
      Store.setTx, Account.new, findA, insertA, Outcome.next]
  · norm_num [findA]
  · simp

/-- C8 evidence: a successful call returns `Ok(())` — in this embedding
`Outcome.ok` carrying only the mutated store and no `AccountSummary` — while
the caller in `main.rs` expects the post-mutation summary (shown here as
`Account.summary` of the stored account, the record the claim says the
operation should return). -/
theorem C8_evidence :
    handle_deposit Store.empty 1 100 5 =
      Outcome.ok ⟨[(100, ⟨100, 5, 0, false⟩)],
                  [(1, ⟨1, TxType.Deposit, 100, 5, DisputeState.Normal⟩)]⟩ ∧
    Account.summary ⟨100, 5, 0, false⟩ = ⟨100, 5, 0, 5, false⟩ := by
  constructor
  · norm_num [handle_deposit, Store.get_account, Store.setAccount,
      Store.setTx, Store.empty, Account.new, findA, insertA]
  · norm_num [Account.summary]

/-- The account handed out by `get_account` has non-negative held under the
invariant (a fresh account has held 0). -/
theorem acct_held_nonneg (s : Store) (c : Nat) (hinv : LedgerInv s) :
    0 ≤ (s.acct c).held := by
  cases h : findA s.accounts c with
  | none => simp [Store.acct, h, Account.new]
  | some a => simpa [Store.acct, h] using hinv.1 c a h

/-- The empty ledger satisfies the invariant. -/
theorem ledgerInv_empty : LedgerInv Store.empty := by
  constructor <;> intro x y hx <;> simp [Store.empty, findA] at hx

/-- Inserting an account with non-negative held keeps all helds non-negative. -/
theorem ledgerInv_insert_account (s : Store) (c : Nat) (aN : Account)
    (hinv : LedgerInv s) (hheld : 0 ≤ aN.held) :
    ∀ d a, findA (insertA s.accounts c aN) d = some a → 0 ≤ a.held := by
  intro d a hd
  rw [findA_insertA] at hd
  by_cases hdc : d = c
  · simp [hdc] at hd
    exact hd ▸ hheld
  · rw [if_neg hdc] at hd
    exact hinv.1 d a hd

/-- Inserting a history entry with non-negative amount keeps all amounts
non-negative. -/
theorem ledgerInv_insert_history (s : Store) (t : Nat) (txN : Tx)
    (hinv : LedgerInv s) (hamt : 0 ≤ txN.amount) :
    ∀ u tx, findA (insertA s.history t txN) u = some tx → 0 ≤ tx.amount := by
  intro u tx hu
  rw [findA_insertA] at hu
  by_cases hut : u = t
  · simp [hut] at hu
    exact hu ▸ hamt
  · rw [if_neg hut] at hu
    exact hinv.2 u tx hu

/-- Every call (successful or returning a domain error) preserves the
invariant. -/
theorem ledgerInv_step (s : Store) (op : Op) (s' : Store)
    (hinv : LedgerInv s) (h : (step s op).next = some s') : LedgerInv s' := by
  cases op with
  | deposit t c amt =>
      by_cases h0 : amt < 0
      · simp [step, handle_deposit, h0, Outcome.next] at h
      · rw [show step s (Op.deposit t c amt) = handle_deposit s t c amt
            from rfl,
          handle_deposit_eq s t c amt (not_lt.mp h0)] at h
        simp [Outcome.next] at h
        subst h
        exact ⟨ledgerInv_insert_account s c _ hinv
            (by simpa using acct_held_nonneg s c hinv),
          ledgerInv_insert_history s t _ hinv (by simpa using not_lt.mp h0)⟩
  | withdrawal t c amt =>
      by_cases h0 : amt < 0
      · simp [step, handle_withdrawal, h0, Outcome.next] at h
      · by_cases hav : amt ≤ (s.acct c).available
        · rw [show step s (Op.withdrawal t c amt) = handle_withdrawal s t c amt
              from rfl,
            handle_withdrawal_ok s t c amt (not_lt.mp h0) hav] at h
          simp [Outcome.next] at h
          subst h
          exact ⟨ledgerInv_insert_account s c _ hinv
              (by simpa using acct_held_nonneg s c hinv),
            ledgerInv_insert_history s t _ hinv (by simpa using not_lt.mp h0)⟩
        · rw [show step s (Op.withdrawal t c amt) = handle_withdrawal s t c amt
              from rfl,
            handle_withdrawal_err s t c amt (not_lt.mp h0)
              (not_le.mp hav)] at h
          simp [Outcome.next] at h
          subst h
          exact ⟨ledgerInv_insert_account s c _ hinv
              (acct_held_nonneg s c hinv), hinv.2⟩
  | dispute c t =>
      cases htx : findA s.history t with
      | none =>
          rw [show step s (Op.dispute c t) = handle_dispute s c t from rfl,
            handle_dispute_notfound s c t htx] at h
          simp [Outcome.next] at h
          subst h
          exact hinv
      | some tx =>
          by_cases hst : tx.dispute_state = DisputeState.Normal
          · by_cases htp : tx.tp = TxType.Withdrawal ∨ tx.tp = TxType.Deposit
            · have hamt : 0 ≤ tx.amount := hinv.2 t tx htx
              by_cases hav : tx.amount ≤ (s.acct c).available
              · rw [show step s (Op.dispute c t) = handle_dispute s c t
                    from rfl,
                  handle_dispute_ok s c t tx htx hst htp hav] at h
                simp [Outcome.next] at h
                subst h
                refine ⟨ledgerInv_insert_account s c _ hinv ?_,
                  ledgerInv_insert_history s t _ hinv (by simpa using hamt)⟩
                simpa using add_nonneg (acct_held_nonneg s c hinv) hamt
              · rw [show step s (Op.dispute c t) = handle_dispute s c t
                    from rfl,
                  handle_dispute_insufficient s c t tx htx hst htp
                    (not_le.mp hav)] at h
                simp [Outcome.next] at h
                subst h
                exact ⟨ledgerInv_insert_account s c _ hinv
                    (acct_held_nonneg s c hinv),
                  ledgerInv_insert_history s t _ hinv (by simpa using hamt)⟩
            · rw [show step s (Op.dispute c t) = handle_dispute s c t
                  from rfl,
                handle_dispute_panic s c t tx htx hst htp] at h
              simp [Outcome.next] at h
          · rw [show step s (Op.dispute c t) = handle_dispute s c t from rfl,
              handle_dispute_wrongstate s c t tx htx hst] at h
            simp [Outcome.next] at h
            subst h
            exact hinv
  | resolve c t =>
      cases htx : findA s.history t with
      | none =>
          rw [show step s (Op.resolve c t) = handle_resolve s c t from rfl,
            handle_resolve_notfound s c t htx] at h
          simp [Outcome.next] at h
          subst h
          exact hinv
      | some tx =>
          by_cases hst : tx.dispute_state = DisputeState.Disputed
          · have hamt : 0 ≤ tx.amount := hinv.2 t tx htx
            by_cases hheld : tx.amount ≤ (s.acct c).held
            · rw [show step s (Op.resolve c t) = handle_resolve s c t
                  from rfl,
                handle_resolve_ok s c t tx htx hst hheld] at h
              simp [Outcome.next] at h
              subst h
              refine ⟨ledgerInv_insert_account s c _ hinv ?_,
                ledgerInv_insert_history s t _ hinv (by simpa using hamt)⟩
              simpa using sub_nonneg.mpr hheld
            · rw [show step s (Op.resolve c t) = handle_resolve s c t
                  from rfl,
                handle_resolve_panic s c t tx htx hst (not_le.mp hheld)] at h
              simp [Outcome.next] at h
          · rw [show step s (Op.resolve c t) = handle_resolve s c t from rfl,
              handle_resolve_wrongstate s c t tx htx hst] at h
            simp [Outcome.next] at h
            subst h
            exact hinv
  | chargeback c t =>
      cases htx : findA s.history t with
      | none =>
          rw [show step s (Op.chargeback c t) = handle_chargeback s c t
              from rfl,
            handle_chargeback_notfound s c t htx] at h
          simp [Outcome.next] at h
          subst h
          exact hinv
      | some tx =>
          by_cases hst : tx.dispute_state = DisputeState.Disputed
          · have hamt : 0 ≤ tx.amount := hinv.2 t tx htx
            by_cases hheld : tx.amount ≤ (s.acct c).held
            · rw [show step s (Op.chargeback c t) = handle_chargeback s c t
                  from rfl,
                handle_chargeback_ok s c t tx htx hst hheld] at h
              simp [Outcome.next] at h
              subst h
              refine ⟨ledgerInv_insert_account s c _ hinv ?_,
                ledgerInv_insert_history s t _ hinv (by simpa using hamt)⟩
              simpa using sub_nonneg.mpr hheld
            · rw [show step s (Op.chargeback c t) = handle_chargeback s c t
                  from rfl,
                handle_chargeback_panic s c t tx htx hst (not_le.mp hheld)] at h
              simp [Outcome.next] at h
          · rw [show step s (Op.chargeback c t) = handle_chargeback s c t
                from rfl,
              handle_chargeback_wrongstate s c t tx htx hst] at h
            simp [Outcome.next] at h
            subst h
            exact hinv

/-- Every reachable state satisfies the invariant. -/
theorem reachable_ledgerInv (s : Store) (h : Reachable s) : LedgerInv s := by
  induction h with
  | init => exact ledgerInv_empty
  | next op _ hstep ih => exact ledgerInv_step _ op _ ih hstep

/-- C2 (amended): in every state reachable from the empty ledger by any
sequence of operation calls, every account's held balance is non-negative.
(The original claim's second conjunct — that a Disputed transaction's amount
is reflected in the held balance of the account recorded as its owner —
fails on the code, because Dispute trusts the caller-supplied client and
marks the dispute even when the funds check fails; see the counterexample.) -/
theorem C2_amended_held_nonneg (s : Store) (c : Nat) (a : Account)
    (h : Reachable s) (ha : findA s.accounts c = some a) : 0 ≤ a.held :=
  (reachable_ledgerInv s h).1 c a ha

/-- Witness for C2 (amended) at the state reached by Deposit(1,100,5). -/
theorem C2_amended_held_nonneg_witness :
    (0:Rat) ≤ (⟨100, 5, 0, false⟩ : Account).held :=
  C2_amended_held_nonneg
    ⟨[(100, ⟨100, 5, 0, false⟩)],
     [(1, ⟨1, TxType.Deposit, 100, 5, DisputeState.Normal⟩)]⟩ 100
    ⟨100, 5, 0, false⟩
    (Reachable.next (Op.deposit 1 100 5) Reachable.init
      (by norm_num [step, handle_deposit, Store.get_account, Store.setAccount,
        Store.setTx, Store.empty, Account.new, findA, insertA, Outcome.next]))
    (by norm_num [findA])

/-- The history after a Dispute/Resolve/Chargeback call (successful or
returning a domain error) is either untouched or overwrites exactly one
entry, changing only its dispute state along the allowed transition. -/
theorem step_history_shape (s : Store) (op : Op) (s' : Store)
    (hop : op.refOnly = true) (hstep : (step s op).next = some s') :
    s'.history = s.history ∨
    ∃ u base d, findA s.history u = some base ∧
      s'.history = insertA s.history u { base with dispute_state := d } ∧
      ((base.dispute_state = DisputeState.Normal ∧
          d = DisputeState.Disputed) ∨
       (base.dispute_state = DisputeState.Disputed ∧
          (d = DisputeState.Resolved ∨ d = DisputeState.ChargedBack))) := by
  cases op with
  | deposit t c amt => simp [Op.refOnly] at hop
  | withdrawal t c amt => simp [Op.refOnly] at hop
  | dispute c u =>
      cases htx : findA s.history u with
      | none =>
          rw [show step s (Op.dispute c u) = handle_dispute s c u from rfl,
            handle_dispute_notfound s c u htx] at hstep
          simp [Outcome.next] at hstep
          subst hstep
          exact Or.inl rfl
      | some base =>
          by_cases hst : base.dispute_state = DisputeState.Normal
          · by_cases htp : base.tp = TxType.Withdrawal ∨ base.tp = TxType.Deposit
            · by_cases hav : base.amount ≤ (s.acct c).available
              · rw [show step s (Op.dispute c u) = handle_dispute s c u
                    from rfl,
                  handle_dispute_ok s c u base htx hst htp hav] at hstep
                simp [Outcome.next] at hstep
                subst hstep
                exact Or.inr ⟨u, base, DisputeState.Disputed, htx, rfl,
                  Or.inl ⟨hst, rfl⟩⟩
              · rw [show step s (Op.dispute c u) = handle_dispute s c u
                    from rfl,
                  handle_dispute_insufficient s c u base htx hst htp
                    (not_le.mp hav)] at hstep
                simp [Outcome.next] at hstep
                subst hstep
                exact Or.inr ⟨u, base, DisputeState.Disputed, htx, rfl,
                  Or.inl ⟨hst, rfl⟩⟩
            · rw [show step s (Op.dispute c u) = handle_dispute s c u
                  from rfl,
                handle_dispute_panic s c u base htx hst htp] at hstep
              simp [Outcome.next] at hstep
          · rw [show step s (Op.dispute c u) = handle_dispute s c u from rfl,
              handle_dispute_wrongstate s c u base htx hst] at hstep
            simp [Outcome.next] at hstep
            subst hstep
            exact Or.inl rfl
  | resolve c u =>
      cases htx : findA s.history u with
      | none =>
          rw [show step s (Op.resolve c u) = handle_resolve s c u from rfl,
            handle_resolve_notfound s c u htx] at hstep
          simp [Outcome.next] at hstep
          subst hstep
          exact Or.inl rfl
      | some base =>
          by_cases hst : base.dispute_state = DisputeState.Disputed
          · by_cases hheld : base.amount ≤ (s.acct c).held
            · rw [show step s (Op.resolve c u) = handle_resolve s c u
                  from rfl,
                handle_resolve_ok s c u base htx hst hheld] at hstep
              simp [Outcome.next] at hstep
              subst hstep
              exact Or.inr ⟨u, base, DisputeState.Resolved, htx, rfl,
                Or.inr ⟨hst, Or.inl rfl⟩⟩
            · rw [show step s (Op.resolve c u) = handle_resolve s c u
                  from rfl,
                handle_resolve_panic s c u base htx hst
                  (not_le.mp hheld)] at hstep
              simp [Outcome.next] at hstep
          · rw [show step s (Op.resolve c u) = handle_resolve s c u from rfl,
              handle_resolve_wrongstate s c u base htx hst] at hstep
            simp [Outcome.next] at hstep
            subst hstep
            exact Or.inl rfl
  | chargeback c u =>
      cases htx : findA s.history u with
      | none =>
          rw [show step s (Op.chargeback c u) = handle_chargeback s c u
              from rfl,
            handle_chargeback_notfound s c u htx] at hstep
          simp [Outcome.next] at hstep
          subst hstep
          exact Or.inl rfl
      | some base =>
          by_cases hst : base.dispute_state = DisputeState.Disputed
          · by_cases hheld : base.amount ≤ (s.acct c).held
            · rw [show step s (Op.chargeback c u) = handle_chargeback s c u
                  from rfl,
                handle_chargeback_ok s c u base htx hst hheld] at hstep
              simp [Outcome.next] at hstep
              subst hstep
              exact Or.inr ⟨u, base, DisputeState.ChargedBack, htx, rfl,
                Or.inr ⟨hst, Or.inr rfl⟩⟩
            · rw [show step s (Op.chargeback c u) = handle_chargeback s c u
                  from rfl,
                handle_chargeback_panic s c u base htx hst
                  (not_le.mp hheld)] at hstep
              simp [Outcome.next] at hstep
          · rw [show step s (Op.chargeback c u) = handle_chargeback s c u
                from rfl,
              handle_chargeback_wrongstate s c u base htx hst] at hstep
            simp [Outcome.next] at hstep
            subst hstep
            exact Or.inl rfl

/-- C3 (amended): under Dispute, Resolve and Chargeback calls every history
entry's disputeState only moves along the strict partial order
Normal → Disputed → (Resolved | ChargedBack), no transition is reversible,
and an entry in a terminal state is never modified by those calls.  The
original claim's extension to later Deposit/Withdrawal calls reusing the
same txid fails: those overwrite the entry with a fresh `Normal` entry (last
write wins in the history map); see the counterexample. -/
theorem C3_amended_dispute_order (s s' : Store) (op : Op) (t : Nat)
    (tx tx' : Tx) (hop : op.refOnly = true)
    (hstep : (step s op).next = some s')
    (h : findA s.history t = some tx)
    (h' : findA s'.history t = some tx') :
    DisputeState.order tx.dispute_state tx'.dispute_state ∧
    ((tx.dispute_state = DisputeState.Resolved ∨
      tx.dispute_state = DisputeState.ChargedBack) → tx' = tx) := by
  rcases step_history_shape s op s' hop hstep with heq | ⟨u, base, d, hbase, hhist, hrel⟩
  · rw [heq, h] at h'
    have htt : tx' = tx := (Option.some.inj h').symm
    subst htt
    exact ⟨Or.inl rfl, fun _ => rfl⟩
  · rw [hhist] at h'
    by_cases htu : t = u
    · subst htu
      rw [findA_insertA_self] at h'
      rw [h] at hbase
      have hbt : base = tx := (Option.some.inj hbase).symm
      subst hbt
      have htx' : tx' = { base with dispute_state := d } :=
        (Option.some.inj h').symm
      subst htx'
      rcases hrel with ⟨hN, hD⟩ | ⟨hD2, hRC⟩
      · refine ⟨Or.inr (Or.inl ⟨hN, by simp [hD]⟩), ?_⟩
        intro hterm
        rw [hN] at hterm
        rcases hterm with hterm | hterm <;> cases hterm
      · refine ⟨Or.inr (Or.inr ⟨hD2, by rcases hRC with hc | hc <;> simp [hc]⟩), ?_⟩
        intro hterm
        rw [hD2] at hterm
        rcases hterm with hterm | hterm <;> cases hterm
    · rw [findA_insertA_ne _ _ _ _ htu, h] at h'
      have htt : tx' = tx := (Option.some.inj h').symm
      subst htt
      exact ⟨Or.inl rfl, fun _ => rfl⟩

/-- Witness for C3 (amended) at the concrete step Dispute(100,1) from the
state reached by Deposit(1,100,5): the entry moves Normal → Disputed. -/
theorem C3_amended_dispute_order_witness :
    DisputeState.order
      (⟨1, TxType.Deposit, 100, 5, DisputeState.Normal⟩ : Tx).dispute_state
      (⟨1, TxType.Deposit, 100, 5, DisputeState.Disputed⟩ : Tx).dispute_state ∧
    (((⟨1, TxType.Deposit, 100, 5, DisputeState.Normal⟩ : Tx).dispute_state =
        DisputeState.Resolved ∨
      (⟨1, TxType.Deposit, 100, 5, DisputeState.Normal⟩ : Tx).dispute_state =
        DisputeState.ChargedBack) →
      (⟨1, TxType.Deposit, 100, 5, DisputeState.Disputed⟩ : Tx) =
      ⟨1, TxType.Deposit, 100, 5, DisputeState.Normal⟩) :=
  C3_amended_dispute_order
    ⟨[(100, ⟨100, 5, 0, false⟩)],
     [(1, ⟨1, TxType.Deposit, 100, 5, DisputeState.Normal⟩)]⟩
    ⟨[(100, ⟨100, 0, 5, false⟩)],
     [(1, ⟨1, TxType.Deposit, 100, 5, DisputeState.Disputed⟩)]⟩
    (Op.dispute 100 1) 1
    ⟨1, TxType.Deposit, 100, 5, DisputeState.Normal⟩
    ⟨1, TxType.Deposit, 100, 5, DisputeState.Disputed⟩
    rfl
    (by norm_num [step, handle_dispute, Account.need, Store.get_account,
      Store.setAccount, Store.setTx, Account.new, findA, insertA,
      Outcome.next])
    (by norm_num [findA]) (by norm_num [findA])

/-- The accounts map after any call (successful or returning a domain error)
is either untouched or updates one client, and the written account never
clears the stored `locked` flag (it keeps it, or chargeback sets it). -/
theorem step_accounts_shape (s : Store) (op : Op) (s' : Store)
    (hstep : (step s op).next = some s') :
    s'.accounts = s.accounts ∨
    ∃ c aN, s'.accounts = insertA s.accounts c aN ∧
      (aN.locked = (s.acct c).locked ∨ aN.locked = true) := by
  cases op with
  | deposit t c amt =>
      by_cases h0 : amt < 0
      · simp [step, handle_deposit, h0, Outcome.next] at hstep
      · rw [show step s (Op.deposit t c amt) = handle_deposit s t c amt
            from rfl,
          handle_deposit_eq s t c amt (not_lt.mp h0)] at hstep
        simp [Outcome.next] at hstep
        subst hstep
        exact Or.inr ⟨c, _, rfl, Or.inl rfl⟩
  | withdrawal t c amt =>
      by_cases h0 : amt < 0
      · simp [step, handle_withdrawal, h0, Outcome.next] at hstep
      · by_cases hav : amt ≤ (s.acct c).available
        · rw [show step s (Op.withdrawal t c amt) = handle_withdrawal s t c amt
              from rfl,
            handle_withdrawal_ok s t c amt (not_lt.mp h0) hav] at hstep
          simp [Outcome.next] at hstep
          subst hstep
          exact Or.inr ⟨c, _, rfl, Or.inl rfl⟩
        · rw [show step s (Op.withdrawal t c amt) = handle_withdrawal s t c amt
              from rfl,
            handle_withdrawal_err s t c amt (not_lt.mp h0)
              (not_le.mp hav)] at hstep
          simp [Outcome.next] at hstep
          subst hstep
          exact Or.inr ⟨c, _, rfl, Or.inl rfl⟩
  | dispute c u =>
      cases htx : findA s.history u with
      | none =>
          rw [show step s (Op.dispute c u) = handle_dispute s c u from rfl,
            handle_dispute_notfound s c u htx] at hstep
          simp [Outcome.next] at hstep
          subst hstep
          exact Or.inl rfl
      | some base =>
          by_cases hst : base.dispute_state = DisputeState.Normal
          · by_cases htp : base.tp = TxType.Withdrawal ∨ base.tp = TxType.Deposit
            · by_cases hav : base.amount ≤ (s.acct c).available
              · rw [show step s (Op.dispute c u) = handle_dispute s c u
                    from rfl,
                  handle_dispute_ok s c u base htx hst htp hav] at hstep
                simp [Outcome.next] at hstep
                subst hstep
                exact Or.inr ⟨c, _, rfl, Or.inl rfl⟩
              · rw [show step s (Op.dispute c u) = handle_dispute s c u
                    from rfl,
                  handle_dispute_insufficient s c u base htx hst htp
                    (not_le.mp hav)] at hstep
                simp [Outcome.next] at hstep
                subst hstep
                exact Or.inr ⟨c, _, rfl, Or.inl rfl⟩
            · rw [show step s (Op.dispute c u) = handle_dispute s c u
                  from rfl,
                handle_dispute_panic s c u base htx hst htp] at hstep
              simp [Outcome.next] at hstep
          · rw [show step s (Op.dispute c u) = handle_dispute s c u from rfl,
              handle_dispute_wrongstate s c u base htx hst] at hstep
            simp [Outcome.next] at hstep
            subst hstep
            exact Or.inl rfl
  | resolve c u =>
      cases htx : findA s.history u with
      | none =>
          rw [show step s (Op.resolve c u) = handle_resolve s c u from rfl,
            handle_resolve_notfound s c u htx] at hstep
          simp [Outcome.next] at hstep
          subst hstep
          exact Or.inl rfl
      | some base =>
          by_cases hst : base.dispute_state = DisputeState.Disputed
          · by_cases hheld : base.amount ≤ (s.acct c).held
            · rw [show step s (Op.resolve c u) = handle_resolve s c u
                  from rfl,
                handle_resolve_ok s c u base htx hst hheld] at hstep
              simp [Outcome.next] at hstep
              subst hstep
              exact Or.inr ⟨c, _, rfl, Or.inl rfl⟩
            · rw [show step s (Op.resolve c u) = handle_resolve s c u
                  from rfl,
                handle_resolve_panic s c u base htx hst
                  (not_le.mp hheld)] at hstep
              simp [Outcome.next] at hstep
          · rw [show step s (Op.resolve c u) = handle_resolve s c u from rfl,
              handle_resolve_wrongstate s c u base htx hst] at hstep
            simp [Outcome.next] at hstep
            subst hstep
            exact Or.inl rfl
  | chargeback c u =>
      cases htx : findA s.history u with
      | none =>
          rw [show step s (Op.chargeback c u) = handle_chargeback s c u
              from rfl,
            handle_chargeback_notfound s c u htx] at hstep
          simp [Outcome.next] at hstep
          subst hstep
          exact Or.inl rfl
      | some base =>
          by_cases hst : base.dispute_state = DisputeState.Disputed
          · by_cases hheld : base.amount ≤ (s.acct c).held
            · rw [show step s (Op.chargeback c u) = handle_chargeback s c u
                  from rfl,
                handle_chargeback_ok s c u base htx hst hheld] at hstep
              simp [Outcome.next] at hstep
              subst hstep
              exact Or.inr ⟨c, _, rfl, Or.inr rfl⟩
            · rw [show step s (Op.chargeback c u) = handle_chargeback s c u
                  from rfl,
                handle_chargeback_panic s c u base htx hst
                  (not_le.mp hheld)] at hstep
              simp [Outcome.next] at hstep
          · rw [show step s (Op.chargeback c u) = handle_chargeback s c u
                from rfl,
              handle_chargeback_wrongstate s c u base htx hst] at hstep
            simp [Outcome.next] at hstep
            subst hstep
            exact Or.inl rfl

/-- A locked account stays locked across a single call. -/
theorem locked_persists_step (s s' : Store) (op : Op) (c : Nat) (a : Account)
    (ha : findA s.accounts c = some a) (hl : a.locked = true)
    (hstep : (step s op).next = some s') :
    ∃ a', findA s'.accounts c = some a' ∧ a'.locked = true := by
  rcases step_accounts_shape s op s' hstep with heq | ⟨d, aN, heq, hlk⟩
  · exact ⟨a, heq ▸ ha, hl⟩
  · by_cases hcd : c = d
    · subst hcd
      refine ⟨aN, by rw [heq]; exact findA_insertA_self _ _ _, ?_⟩
      rcases hlk with hlk | hlk
      · rw [hlk]
        simp [Store.acct, ha, hl]
      · exact hlk
    · exact ⟨a, by rw [heq, findA_insertA_ne _ _ _ _ hcd]; exact ha, hl⟩

/-- A locked account stays locked across any sequence of calls. -/
theorem locked_persists_run (ops : List Op) (s s' : Store) (c : Nat)
    (a : Account) (ha : findA s.accounts c = some a) (hl : a.locked = true)
    (hrun : runOps s ops = some s') :
    ∃ a', findA s'.accounts c = some a' ∧ a'.locked = true := by
  induction ops generalizing s a with
  | nil =>
      simp [runOps] at hrun
      subst hrun
      exact ⟨a, ha, hl⟩
  | cons op rest ih =>
      cases hnext : (step s op).next with
      | none => simp [runOps, hnext] at hrun
      | some s₁ =>
          simp only [runOps, hnext] at hrun
          obtain ⟨a₁, ha₁, hl₁⟩ := locked_persists_step s s₁ op c a ha hl hnext
          exact ih s₁ a₁ ha₁ hl₁ hrun

/-- C7: once an account's locked flag is true, no subsequent sequence of
operation calls (Deposit, Withdrawal, Dispute, Resolve or Chargeback, with
any arguments) ever sets that account's locked flag back to false. -/
theorem C7_lock_monotone (ops : List Op) (s s' : Store) (c : Nat)
    (a : Account) (ha : findA s.accounts c = some a) (hl : a.locked = true)
    (hrun : runOps s ops = some s') :
    (findA s'.accounts c).map Account.locked = some true := by
  obtain ⟨a', ha', hl'⟩ := locked_persists_run ops s s' c a ha hl hrun
  rw [ha']
  simp [hl']

/-- Witness for C7: a deposit on a locked account leaves it locked. -/
theorem C7_lock_monotone_witness :
    (findA (⟨[(7, ⟨7, 7, 0, true⟩)], [(1, ⟨1, TxType.Deposit, 7, 2,
        DisputeState.Normal⟩)]⟩ : Store).accounts 7).map Account.locked =
      some true :=
  C7_lock_monotone [Op.deposit 1 7 2]
    ⟨[(7, ⟨7, 5, 0, true⟩)], []⟩
    ⟨[(7, ⟨7, 7, 0, true⟩)], [(1, ⟨1, TxType.Deposit, 7, 2,
        DisputeState.Normal⟩)]⟩
    7 ⟨7, 5, 0, true⟩ (by norm_num [findA]) rfl
    (by norm_num [runOps, step, handle_deposit, Store.get_account,
      Store.setAccount, Store.setTx, Account.new, findA, insertA,
      Outcome.next])

/-- Unfolding of `lockOn` when the client is present. -/
theorem lockOn_def (s : Store) (c : Nat) (a : Account)
    (h : findA s.accounts c = some a) :
    s.lockOn c = ⟨insertA s.accounts c { a with locked := true }, s.history⟩ := by
  simp [Store.lockOn, h, Store.setAccount]

/-- `lockOn` never touches the history map. -/
theorem lockOn_history (s : Store) (c : Nat) :
    (s.lockOn c).history = s.history := by
  unfold Store.lockOn
  cases findA s.accounts c <;> rfl

/-- The locked client's account after `lockOn`. -/
theorem acct_lockOn_self (s : Store) (c : Nat) (a : Account)
    (h : findA s.accounts c = some a) :
    (s.lockOn c).acct c = { a with locked := true } := by
  simp [lockOn_def s c a h, Store.acct, findA_insertA_self]

/-- Other clients' accounts are untouched by `lockOn`. -/
theorem acct_lockOn_ne (s : Store) (c d : Nat) (a : Account)
    (h : findA s.accounts c = some a) (hne : d ≠ c) :
    (s.lockOn c).acct d = s.acct d := by
  simp [lockOn_def s c a h, Store.acct, findA_insertA_ne _ _ _ _ hne]

/-- `lockOn` after writing the locked client commutes into one insert. -/
theorem lockOn_insert_self (l : List (Nat × Account)) (hist : List (Nat × Tx))
    (c : Nat) (v : Account) :
    (Store.mk (insertA l c v) hist).lockOn c =
      ⟨insertA l c { v with locked := true }, hist⟩ := by
  simp [Store.lockOn, Store.setAccount, findA_insertA_self, insertA_insertA]

/-- `lockOn` after writing a different client commutes with the write. -/
theorem lockOn_insert_ne (l : List (Nat × Account)) (hist : List (Nat × Tx))
    (c d : Nat) (hne : c ≠ d) (a : Account) (hc : findA l c = some a)
    (w : Account) :
    (Store.mk (insertA l d w) hist).lockOn c =
      ⟨insertA (insertA l c { a with locked := true }) d w, hist⟩ := by
  have hfind : findA (insertA l d w) c = some a := by
    rw [findA_insertA_ne _ _ _ _ hne]
    exact hc
  simp [Store.lockOn, hfind, Store.setAccount]
  exact (insertA_comm hne hc { a with locked := true } w).symm

/-- Deposit ignores the locked flag: it commutes with forcing the flag. -/
theorem lock_comm_deposit (s : Store) (c : Nat) (a : Account) (t d : Nat)
    (amt : Rat) (h : findA s.accounts c = some a) :
    handle_deposit (s.lockOn c) t d amt =
      (handle_deposit s t d amt).mapStore (fun s2 => s2.lockOn c) := by
  by_cases h0 : amt < 0
  · simp [handle_deposit, h0, Outcome.mapStore]
  · rw [handle_deposit_eq (s.lockOn c) t d amt (not_lt.mp h0),
      handle_deposit_eq s t d amt (not_lt.mp h0)]
    by_cases hdc : d = c
    · subst hdc
      obtain ⟨aid, aav, ahd, alk⟩ := a
      simp [Outcome.mapStore, lockOn_def s d _ h, lockOn_history,
        insertA_insertA, lockOn_insert_self, Store.acct, h,
        findA_insertA_self]
    · simp [Outcome.mapStore, lockOn_def s c a h, lockOn_history,
        lockOn_insert_ne _ _ c d (Ne.symm hdc) a h, Store.acct,
        findA_insertA_ne _ _ _ _ hdc]

/-- Withdrawal ignores the locked flag: it commutes with forcing the flag. -/
theorem lock_comm_withdrawal (s : Store) (c : Nat) (a : Account) (t d : Nat)
    (amt : Rat) (h : findA s.accounts c = some a) :
    handle_withdrawal (s.lockOn c) t d amt =
      (handle_withdrawal s t d amt).mapStore (fun s2 => s2.lockOn c) := by
  by_cases h0 : amt < 0
  · simp [handle_withdrawal, h0, Outcome.mapStore]
  · have hacc : ((s.lockOn c).acct d).available = (s.acct d).available := by
      by_cases hdc : d = c
      · subst hdc
        rw [acct_lockOn_self s d a h]
        simp [Store.acct, h]
      · rw [acct_lockOn_ne s c d a h hdc]
    by_cases hav : amt ≤ (s.acct d).available
    · rw [handle_withdrawal_ok (s.lockOn c) t d amt (not_lt.mp h0)
          (by rw [hacc]; exact hav),
        handle_withdrawal_ok s t d amt (not_lt.mp h0) hav]
      by_cases hdc : d = c
      · subst hdc
        obtain ⟨aid, aav, ahd, alk⟩ := a
        simp [Outcome.mapStore, lockOn_def s d _ h, lockOn_history,
          insertA_insertA, lockOn_insert_self, Store.acct, h,
          findA_insertA_self]
      · simp [Outcome.mapStore, lockOn_def s c a h, lockOn_history,
          lockOn_insert_ne _ _ c d (Ne.symm hdc) a h, Store.acct,
          findA_insertA_ne _ _ _ _ hdc]
    · rw [handle_withdrawal_err (s.lockOn c) t d amt (not_lt.mp h0)
          (by rw [hacc]; exact not_le.mp hav),
        handle_withdrawal_err s t d amt (not_lt.mp h0) (not_le.mp hav)]
      by_cases hdc : d = c
      · subst hdc
        obtain ⟨aid, aav, ahd, alk⟩ := a
        simp [Outcome.mapStore, lockOn_def s d _ h, lockOn_history,
          insertA_insertA, lockOn_insert_self, Store.acct, h,
          findA_insertA_self]
      · simp [Outcome.mapStore, lockOn_def s c a h, lockOn_history,
          lockOn_insert_ne _ _ c d (Ne.symm hdc) a h, Store.acct,
          findA_insertA_ne _ _ _ _ hdc]

/-- Dispute ignores the locked flag: it commutes with forcing the flag. -/
theorem lock_comm_dispute (s : Store) (c : Nat) (a : Account) (d u : Nat)
    (h : findA s.accounts c = some a) :
    handle_dispute (s.lockOn c) d u =
      (handle_dispute s d u).mapStore (fun s2 => s2.lockOn c) := by
  cases htx : findA s.history u with
  | none =>
      have htxL : findA (s.lockOn c).history u = none := by
        rw [lockOn_history]; exact htx
      rw [handle_dispute_notfound _ _ _ htxL, handle_dispute_notfound s d u htx]
      simp [Outcome.mapStore]
  | some tx =>
      have htxL : findA (s.lockOn c).history u = some tx := by
        rw [lockOn_history]; exact htx
      by_cases hst : tx.dispute_state = DisputeState.Normal
      · by_cases htp : tx.tp = TxType.Withdrawal ∨ tx.tp = TxType.Deposit
        · have hacc : ((s.lockOn c).acct d).available = (s.acct d).available := by
            by_cases hdc : d = c
            · subst hdc
              rw [acct_lockOn_self s d a h]
              simp [Store.acct, h]
            · rw [acct_lockOn_ne s c d a h hdc]
          by_cases hav : tx.amount ≤ (s.acct d).available
          · rw [handle_dispute_ok (s.lockOn c) d u tx htxL hst htp
                (by rw [hacc]; exact hav),
              handle_dispute_ok s d u tx htx hst htp hav]
            by_cases hdc : d = c
            · subst hdc
              obtain ⟨aid, aav, ahd, alk⟩ := a
              simp [Outcome.mapStore, lockOn_def s d _ h, lockOn_history,
                insertA_insertA, lockOn_insert_self, Store.acct, h,
                findA_insertA_self]
            · simp [Outcome.mapStore, lockOn_def s c a h, lockOn_history,
                lockOn_insert_ne _ _ c d (Ne.symm hdc) a h, Store.acct,
                findA_insertA_ne _ _ _ _ hdc]
          · rw [handle_dispute_insufficient (s.lockOn c) d u tx htxL hst htp
                (by rw [hacc]; exact not_le.mp hav),
              handle_dispute_insufficient s d u tx htx hst htp (not_le.mp hav)]
            by_cases hdc : d = c
            · subst hdc
              obtain ⟨aid, aav, ahd, alk⟩ := a
              simp [Outcome.mapStore, lockOn_def s d _ h, lockOn_history,
                insertA_insertA, lockOn_insert_self, Store.acct, h,
                findA_insertA_self]
            · simp [Outcome.mapStore, lockOn_def s c a h, lockOn_history,
                lockOn_insert_ne _ _ c d (Ne.symm hdc) a h, Store.acct,
                findA_insertA_ne _ _ _ _ hdc]
        · rw [handle_dispute_panic (s.lockOn c) d u tx htxL hst htp,
            handle_dispute_panic s d u tx htx hst htp]
          simp [Outcome.mapStore]
      · rw [handle_dispute_wrongstate (s.lockOn c) d u tx htxL hst,
          handle_dispute_wrongstate s d u tx htx hst]
        simp [Outcome.mapStore]

/-- Resolve ignores the locked flag: it commutes with forcing the flag. -/
theorem lock_comm_resolve (s : Store) (c : Nat) (a : Account) (d u : Nat)
    (h : findA s.accounts c = some a) :
    handle_resolve (s.lockOn c) d u =
      (handle_resolve s d u).mapStore (fun s2 => s2.lockOn c) := by
  cases htx : findA s.history u with
  | none =>
      have htxL : findA (s.lockOn c).history u = none := by
        rw [lockOn_history]; exact htx
      rw [handle_resolve_notfound _ _ _ htxL, handle_resolve_notfound s d u htx]
      simp [Outcome.mapStore]
  | some tx =>
      have htxL : findA (s.lockOn c).history u = some tx := by
        rw [lockOn_history]; exact htx
      by_cases hst : tx.dispute_state = DisputeState.Disputed
      · have hacc : ((s.lockOn c).acct d).held = (s.acct d).held := by
          by_cases hdc : d = c
          · subst hdc
            rw [acct_lockOn_self s d a h]
            simp [Store.acct, h]
          · rw [acct_lockOn_ne s c d a h hdc]
        by_cases hheld : tx.amount ≤ (s.acct d).held
        · rw [handle_resolve_ok (s.lockOn c) d u tx htxL hst
              (by rw [hacc]; exact hheld),
            handle_resolve_ok s d u tx htx hst hheld]
          by_cases hdc : d = c
          · subst hdc
            obtain ⟨aid, aav, ahd, alk⟩ := a
            simp [Outcome.mapStore, lockOn_def s d _ h, lockOn_history,
              insertA_insertA, lockOn_insert_self, Store.acct, h,
              findA_insertA_self]
          · simp [Outcome.mapStore, lockOn_def s c a h, lockOn_history,
              lockOn_insert_ne _ _ c d (Ne.symm hdc) a h, Store.acct,
              findA_insertA_ne _ _ _ _ hdc]
        · rw [handle_resolve_panic (s.lockOn c) d u tx htxL hst
              (by rw [hacc]; exact not_le.mp hheld),
            handle_resolve_panic s d u tx htx hst (not_le.mp hheld)]
          simp [Outcome.mapStore]
      · rw [handle_resolve_wrongstate (s.lockOn c) d u tx htxL hst,
          handle_resolve_wrongstate s d u tx htx hst]
        simp [Outcome.mapStore]

/-- Chargeback ignores the stored locked flag (it only sets it): it commutes
with forcing the flag. -/
theorem lock_comm_chargeback (s : Store) (c : Nat) (a : Account) (d u : Nat)
    (h : findA s.accounts c = some a) :
    handle_chargeback (s.lockOn c) d u =
      (handle_chargeback s d u).mapStore (fun s2 => s2.lockOn c) := by
  cases htx : findA s.history u with
  | none =>
      have htxL : findA (s.lockOn c).history u = none := by
        rw [lockOn_history]; exact htx
      rw [handle_chargeback_notfound _ _ _ htxL,
        handle_chargeback_notfound s d u htx]
      simp [Outcome.mapStore]
  | some tx =>
      have htxL : findA (s.lockOn c).history u = some tx := by
        rw [lockOn_history]; exact htx
      by_cases hst : tx.dispute_state = DisputeState.Disputed
      · have hacc : ((s.lockOn c).acct d).held = (s.acct d).held := by
          by_cases hdc : d = c
          · subst hdc
            rw [acct_lockOn_self s d a h]
            simp [Store.acct, h]
          · rw [acct_lockOn_ne s c d a h hdc]
        by_cases hheld : tx.amount ≤ (s.acct d).held
        · rw [handle_chargeback_ok (s.lockOn c) d u tx htxL hst
              (by rw [hacc]; exact hheld),
            handle_chargeback_ok s d u tx htx hst hheld]
          by_cases hdc : d = c
          · subst hdc
            obtain ⟨aid, aav, ahd, alk⟩ := a
            simp [Outcome.mapStore, lockOn_def s d _ h, lockOn_history,
              insertA_insertA, lockOn_insert_self, Store.acct, h,
              findA_insertA_self]
          · simp [Outcome.mapStore, lockOn_def s c a h, lockOn_history,
              lockOn_insert_ne _ _ c d (Ne.symm hdc) a h, Store.acct,
              findA_insertA_ne _ _ _ _ hdc]
        · rw [handle_chargeback_panic (s.lockOn c) d u tx htxL hst
              (by rw [hacc]; exact not_le.mp hheld),
            handle_chargeback_panic s d u tx htx hst (not_le.mp hheld)]
          simp [Outcome.mapStore]
      · rw [handle_chargeback_wrongstate (s.lockOn c) d u tx htxL hst,
          handle_chargeback_wrongstate s d u tx htx hst]
        simp [Outcome.mapStore]

/-- C10: no operation consults or is blocked by the locked flag.  For any
store in which client `c` is present, running any operation on the store with
`c`'s locked flag forced true produces exactly the outcome of running it on
the original store with the flag forced afterwards: the success/failure
status, the error payload, the history, and every account's available and
held are identical; `locked` only flows into the reported summary field. -/
theorem C10_locked_not_consulted (s : Store) (c : Nat) (a : Account) (op : Op)
    (h : findA s.accounts c = some a) :
    step (s.lockOn c) op = (step s op).mapStore (fun s2 => s2.lockOn c) := by
  cases op with
  | deposit t d amt => exact lock_comm_deposit s c a t d amt h
  | withdrawal t d amt => exact lock_comm_withdrawal s c a t d amt h
  | dispute d u => exact lock_comm_dispute s c a d u h
  | resolve d u => exact lock_comm_resolve s c a d u h
  | chargeback d u => exact lock_comm_chargeback s c a d u h

/-- Witness for C10: a deposit on a locked account behaves as on the
unlocked one, the flag only carried along. -/
theorem C10_locked_not_consulted_witness :
    step ((⟨[(7, ⟨7, 5, 0, false⟩)], []⟩ : Store).lockOn 7)
        (Op.deposit 1 7 3) =
      (step (⟨[(7, ⟨7, 5, 0, false⟩)], []⟩ : Store)
        (Op.deposit 1 7 3)).mapStore (fun s2 => s2.lockOn 7) :=
  C10_locked_not_consulted ⟨[(7, ⟨7, 5, 0, false⟩)], []⟩ 7 ⟨7, 5, 0, false⟩
    (Op.deposit 1 7 3) (by norm_num [findA])
